import Mathlib

/-!
Verification development for the dbsyncx MySQL synchronization service.

The Lean definitions below are a shallow embedding of the Go sources:
  - internal/sync/conflict.go   (ConflictManager.DetectConflict, calculateHash,
                                 LastWriteWinsStrategy.Resolve)
  - internal/store/mysql.go     (MySQLStore.CreateConflict, ResolveConflict,
                                 UpdateSyncState) together with the SQL schema in
                                 migrations/mysql (001_init / 002_add_indexes)
  - internal/config/config.go   (configuration structs and Database.ExecTx)
  - the binlog listener file    (NewBinlogListener, eventHandler.OnRow)
  - the worker pool file        (Worker.run / processBatch / applyChanges /
                                 updateState)
  - internal/sync/manager.go    (Manager.Start)

Go machine integers are modelled as Nat / Int (the values reached here stay far
below any overflow boundary and the source performs no wrap-around arithmetic);
`sql.NullXxx` becomes `Option`; fallible Go functions return `Except String`.
Wall-clock values (`time.Now()`, `uuid.New()`) are passed in as explicit
parameters since the Go code obtains them from the environment.
-/

namespace DbSyncX

/- ========================================================================
   Row images: the Go type `map[string]interface{}`.

   A row image is represented as an association list of column name / value
   pairs; the Go map's key uniqueness corresponds to a `Nodup` hypothesis on
   the keys where a theorem needs it.  Values are restricted to the JSON
   scalars that actually occur in row data (numbers, strings, booleans, null).
   ======================================================================== -/

inductive JValue where
  | jint (n : Int)
  | jstr (s : String)
  | jbool (b : Bool)
  | jnull
deriving DecidableEq, Repr

abbrev RowImage := List (String × JValue)

/- ========================================================================
   Go `encoding/json.Marshal` for `map[string]interface{}`.

   Go serializes a map by sorting its keys (sort.Strings, i.e. lexicographic
   byte order) and emitting `{"k1":v1,"k2":v2}` without whitespace.  String
   values are quoted with `"`, `\` and control characters escaped, and Go
   additionally escapes `<`, `>`, `&` in < form (HTML-safe mode, the
   json.Marshal default).
   ======================================================================== -/

/-- Byte-lexicographic (Go `sort.Strings`) comparison on character lists:
`xs ≤ ys`. -/
def charListLeB : List Char → List Char → Bool
  | [], _ => true
  | _ :: _, [] => false
  | a :: as, b :: bs =>
      if a.toNat < b.toNat then true
      else if b.toNat < a.toNat then false
      else charListLeB as bs

/-- Byte-lexicographic strict comparison on character lists: `xs < ys`. -/
def charListLtB : List Char → List Char → Bool
  | [], [] => false
  | [], _ :: _ => true
  | _ :: _, [] => false
  | a :: as, b :: bs =>
      if a.toNat < b.toNat then true
      else if b.toNat < a.toNat then false
      else charListLtB as bs

def strLeB (s t : String) : Bool := charListLeB s.toList t.toList

def strLtB (s t : String) : Bool := charListLtB s.toList t.toList

def keyLe (a b : String × JValue) : Prop := strLeB a.1 b.1 = true

def keyLt (a b : String × JValue) : Prop := strLtB a.1 b.1 = true

instance : DecidableRel keyLe := fun a b => inferInstanceAs (Decidable (strLeB a.1 b.1 = true))

instance : DecidableRel keyLt := fun a b => inferInstanceAs (Decidable (strLtB a.1 b.1 = true))


/-- Key-sorting step of Go's map serialization (`sort.Strings` over the keys). -/
def sortPairs (img : RowImage) : RowImage := List.insertionSort keyLe img

def hexDigit (n : Nat) : Char :=
  if n < 10 then Char.ofNat (48 + n) else Char.ofNat (87 + n)

/-- Escape one character the way Go's `encoding/json` does for the characters
that occur in this development (ASCII; HTML-safe mode). -/
def escapeChar (c : Char) : String :=
  if c = '"' then "\\\""
  else if c = '\\' then "\\\\"
  else if c = '\n' then "\\n"
  else if c = '\r' then "\\r"
  else if c = '\t' then "\\t"
  else if c.toNat < 32 then
    "\\u00" ++ String.mk [hexDigit (c.toNat / 16), hexDigit (c.toNat % 16)]
  else if c = '<' then "\\u003c"
  else if c = '>' then "\\u003e"
  else if c = '&' then "\\u0026"
  else String.mk [c]

def escapeString (s : String) : String := String.join (s.toList.map escapeChar)

def serializeJValue : JValue → String
  | .jint n => toString n
  | .jstr s => "\"" ++ escapeString s ++ "\""
  | .jbool b => if b then "true" else "false"
  | .jnull => "null"

/-- Go `json.Marshal` applied to a row image: keys sorted lexicographically,
no whitespace, `{` and `}` delimiters. -/
def jsonMarshal (img : RowImage) : String :=
  "\x7b" ++
    String.intercalate ","
      ((sortPairs img).map (fun p => "\"" ++ escapeString p.1 ++ "\":" ++ serializeJValue p.2)) ++
  "\x7d"

/- ========================================================================
   SHA-256 (Go `crypto/sha256`), over byte lists, 32-bit words as Nat % 2^32.
   Validated against the FIPS-180 test vectors (e.g. sha256("abc")).
   ======================================================================== -/

def w32 (n : Nat) : Nat := n % 4294967296

def rotr32 (n x : Nat) : Nat := w32 ((x >>> n) ||| (x <<< (32 - n)))

def not32 (x : Nat) : Nat := x ^^^ 4294967295

def bsig0 (x : Nat) : Nat := rotr32 2 x ^^^ rotr32 13 x ^^^ rotr32 22 x

def bsig1 (x : Nat) : Nat := rotr32 6 x ^^^ rotr32 11 x ^^^ rotr32 25 x

def ssig0 (x : Nat) : Nat := rotr32 7 x ^^^ rotr32 18 x ^^^ (x >>> 3)

def ssig1 (x : Nat) : Nat := rotr32 17 x ^^^ rotr32 19 x ^^^ (x >>> 10)

def chFn (e f g : Nat) : Nat := (e &&& f) ^^^ (not32 e &&& g)

def majFn (a b c : Nat) : Nat := (a &&& b) ^^^ (a &&& c) ^^^ (b &&& c)

def sha256K : List Nat :=
  [1116352408, 1899447441, 3049323471, 3921009573, 961987163, 1508970993,
   2453635748, 2870763221, 3624381080, 310598401, 607225278, 1426881987,
   1925078388, 2162078206, 2614888103, 3248222580, 3835390401, 4022224774,
   264347078, 604807628, 770255983, 1249150122, 1555081692, 1996064986,
   2554220882, 2821834349, 2952996808, 3210313671, 3336571891, 3584528711,
   113926993, 338241895, 666307205, 773529912, 1294757372, 1396182291,
   1695183700, 1986661051, 2177026350, 2456956037, 2730485921, 2820302411,
   3259730800, 3345764771, 3516065817, 3600352804, 4094571909, 275423344,
   430227734, 506948616, 659060556, 883997877, 958139571, 1322822218,
   1537002063, 1747873779, 1955562222, 2024104815, 2227730452, 2361852424,
   2428436474, 2756734187, 3204031479, 3329325298]

def sha256H0 : List Nat :=
  [1779033703, 3144134277, 1013904242, 2773480762,
   1359893119, 2600822924, 528734635, 1541459225]

/-- Big-endian 8-byte encoding of the message bit length. -/
def lenBytes (bitLen : Nat) : List Nat :=
  [(bitLen >>> 56) % 256, (bitLen >>> 48) % 256, (bitLen >>> 40) % 256, (bitLen >>> 32) % 256,
   (bitLen >>> 24) % 256, (bitLen >>> 16) % 256, (bitLen >>> 8) % 256, bitLen % 256]

def padMessage (msg : List Nat) : List Nat :=
  let len := msg.length
  let z := (119 - len % 64) % 64
  msg ++ [128] ++ List.replicate z 0 ++ lenBytes (8 * len)

def toWords : List Nat → List Nat
  | b0 :: b1 :: b2 :: b3 :: rest =>
      ((((b0 <<< 8) ||| b1) <<< 8 ||| b2) <<< 8 ||| b3) :: toWords rest
  | _ => []

def toBlocks : List Nat → List (List Nat)
  | w0 :: w1 :: w2 :: w3 :: w4 :: w5 :: w6 :: w7 ::
    w8 :: w9 :: w10 :: w11 :: w12 :: w13 :: w14 :: w15 :: rest =>
      [w0, w1, w2, w3, w4, w5, w6, w7, w8, w9, w10, w11, w12, w13, w14, w15] :: toBlocks rest
  | [] => []
  | rest => [rest]

/-- Message-schedule extension: append `fuel` further words to `w`. -/
def extendW (w : List Nat) : Nat → List Nat
  | 0 => w
  | n + 1 =>
      let k := w.length
      extendW (w ++ [w32 (ssig1 (w.getD (k - 2) 0) + w.getD (k - 7) 0 +
                          ssig0 (w.getD (k - 15) 0) + w.getD (k - 16) 0)]) n

structure Hash8 where
  a : Nat
  b : Nat
  c : Nat
  d : Nat
  e : Nat
  f : Nat
  g : Nat
  h : Nat
deriving DecidableEq, Repr

def roundStep (st : Hash8) (kw : Nat × Nat) : Hash8 :=
  let t1 := w32 (st.h + bsig1 st.e + chFn st.e st.f st.g + kw.1 + kw.2)
  let t2 := w32 (bsig0 st.a + majFn st.a st.b st.c)
  ⟨w32 (t1 + t2), st.a, st.b, st.c, w32 (st.d + t1), st.e, st.f, st.g⟩

def listToHash8 (l : List Nat) : Hash8 :=
  ⟨l.getD 0 0, l.getD 1 0, l.getD 2 0, l.getD 3 0, l.getD 4 0, l.getD 5 0, l.getD 6 0, l.getD 7 0⟩

def hash8ToList (s : Hash8) : List Nat := [s.a, s.b, s.c, s.d, s.e, s.f, s.g, s.h]

def compressBlock (h : List Nat) (block : List Nat) : List Nat :=
  let w := extendW block 48
  let fin := (sha256K.zip w).foldl roundStep (listToHash8 h)
  (h.zip (hash8ToList fin)).map (fun p => w32 (p.1 + p.2))

/-- SHA-256 digest of a byte sequence, as eight 32-bit words. -/
def sha256Words (msg : List Nat) : List Nat :=
  (toBlocks (toWords (padMessage msg))).foldl compressBlock sha256H0

def wordHex (w : Nat) : String :=
  String.mk [hexDigit ((w >>> 28) % 16), hexDigit ((w >>> 24) % 16),
             hexDigit ((w >>> 20) % 16), hexDigit ((w >>> 16) % 16),
             hexDigit ((w >>> 12) % 16), hexDigit ((w >>> 8) % 16),
             hexDigit ((w >>> 4) % 16), hexDigit (w % 16)]

/-- Lowercase hex rendering of a digest, Go's `fmt.Sprintf("%x", sum)`. -/
def hexDigest (ws : List Nat) : String := String.join (ws.map wordHex)

/-- Byte sequence of an ASCII string (all strings in this development are
ASCII, where UTF-8 bytes and code points coincide). -/
def strBytes (s : String) : List Nat := s.toList.map Char.toNat

/- ========================================================================
   conflict.go
   ======================================================================== -/

/-- `calculateHash` from conflict.go: SHA-256 over `json.Marshal(data)`,
rendered as lowercase hex.  (The source's TODO notwithstanding, this is what
the function executes today: a plain JSON-string hash; `json.Marshal` already
sorts the map keys, and nothing is excluded from the map.) -/
def calculateHash (data : RowImage) : String :=
  hexDigest (sha256Words (strBytes (jsonMarshal data)))

/-- Conflict record (store/models.go `Conflict`; `json.RawMessage` images are
kept in parsed form, which `json.Unmarshal` recovers exactly for these value
types). -/
structure Conflict where
  id : String
  tableName : String
  primaryKeyValue : String
  localData : RowImage
  cloudData : RowImage
  conflictType : String
  detectedAt : Nat
  resolved : Bool
  resolutionStrategy : Option String
  resolvedAt : Option Nat
  resolvedData : Option RowImage
deriving DecidableEq, Repr

/-- `ConflictManager.DetectConflict`: conflict iff the two `calculateHash`
values differ; on conflict builds a `data_mismatch` record carrying both
images.  `uuid.New()` and `time.Now()` are the `newId` / `now` parameters. -/
def DetectConflict (newId : String) (now : Nat) (table pk : String)
    (localData cloudData : RowImage) : Bool × Option Conflict :=
  let localHash := calculateHash localData
  let cloudHash := calculateHash cloudData
  if localHash = cloudHash then (false, none)
  else
    (true, some
      { id := newId
        tableName := table
        primaryKeyValue := pk
        localData := localData
        cloudData := cloudData
        conflictType := "data_mismatch"
        detectedAt := now
        resolved := false
        resolutionStrategy := none
        resolvedAt := none
        resolvedData := none })

structure LastWriteWinsStrategy where
  timestampColumn : String
deriving DecidableEq, Repr

/-- `LastWriteWinsStrategy.Resolve` from conflict.go: the body unmarshals both
images into maps and then returns the local map unconditionally (the source's
timestamp comparison is an unexecuted comment; nothing reads
`s.TimestampColumn`). -/
def lwwResolve (_s : LastWriteWinsStrategy) (c : Conflict) : Except String RowImage :=
  .ok c.localData

/-- Canonicalization as the specification words it (spec section 4.4), for the
comparison in claim C6 only: sort keys, serialize stably, exclude the
configured ignore-list columns, SHA-256 the canonical bytes.  This definition
follows the spec's words, not the source. -/
def specCanonicalImage (ignoreList : List String) (img : RowImage) : RowImage :=
  sortPairs (img.filter (fun p => !(ignoreList.contains p.1)))

/-- Spec-side content hash (claim C6 comparison): SHA-256 over the canonical
bytes of the image with ignore-list columns excluded. -/
def specCalculateHash (ignoreList : List String) (img : RowImage) : String :=
  hexDigest (sha256Words (strBytes (jsonMarshal (specCanonicalImage ignoreList img))))

/-- Spec-side conflict predicate (claim C6): conflict iff the canonicalized
content hashes differ. -/
def specDetectConflict (ignoreList : List String) (a b : RowImage) : Bool :=
  specCalculateHash ignoreList a != specCalculateHash ignoreList b

/- ========================================================================
   store/models.go and store/mysql.go over the migration schema.

   Tables are lists of rows; `id` (conflicts) and `table_name` (sync_state)
   are the primary keys, exactly as migrations/mysql declares them.  The
   migration adds only non-unique secondary indexes on `conflicts.resolved`
   and `conflicts.table_name`.
   ======================================================================== -/

structure SyncState where
  tableName : String
  lastSyncTime : Option Nat
  binlogFile : Option String
  binlogPosition : Option Int
  rowsSynced : Int
  syncDirection : String
  status : String
  errorMessage : Option String
deriving DecidableEq, Repr

/-- `MySQLStore.UpdateSyncState`: INSERT .. ON DUPLICATE KEY UPDATE keyed on
`table_name` (the sync_state primary key); every column is overwritten with
the incoming row's value.  (`updated_at = NOW()` is maintained by the database
and not modelled.) -/
def upsertSyncState (tbl : List SyncState) (s : SyncState) : List SyncState :=
  if tbl.any (fun r => r.tableName == s.tableName) then
    tbl.map (fun r => if r.tableName == s.tableName then s else r)
  else tbl ++ [s]

/-- `MySQLStore.CreateConflict`: a plain INSERT into `conflicts`.  The only
constraint the schema declares is the primary key on `id`; there is no unique
index on `(table_name, primary_key_value)` or on `resolved`. -/
def createConflict (conflicts : List Conflict) (c : Conflict) : Except String (List Conflict) :=
  if conflicts.any (fun r => r.id == c.id) then .error "Duplicate entry for key conflicts.PRIMARY"
  else .ok (conflicts ++ [c])

/-- `MySQLStore.ResolveConflict`: `UPDATE conflicts SET resolved = TRUE, ...
WHERE id = ?`.  An UPDATE matching zero rows is not an error, so the function
returns success whether or not the id exists.  `NOW()` is the `now`
parameter. -/
def resolveConflict (conflicts : List Conflict) (cid strategy : String)
    (resolvedData : RowImage) (now : Nat) : Except String (List Conflict) :=
  .ok (conflicts.map (fun r =>
    if r.id == cid then
      { r with resolved := true
               resolutionStrategy := some strategy
               resolvedData := some resolvedData
               resolvedAt := some now }
    else r))

/- ========================================================================
   config.go
   ======================================================================== -/

structure DatabaseConnection where
  host : String
  port : Nat
  user : String
  password : String
  database : String
  replicationUser : String
  replicationPassword : String
deriving DecidableEq, Repr

structure TableConfig where
  name : String
  conflictResolution : String
  batchSize : Nat
  primaryKey : String
  timestampColumn : String
deriving DecidableEq, Repr

structure SyncConfig where
  mode : String
  tables : List TableConfig
  workers : Nat
  realtime : Bool
  batchInsertSize : Nat
deriving DecidableEq, Repr

/-- `DatabasesConfig`; `local` is a Lean keyword, so the fields are `localDb`
and `cloudDb` for Go's `Local` / `Cloud`. -/
structure DatabasesConfig where
  localDb : DatabaseConnection
  cloudDb : DatabaseConnection
deriving DecidableEq, Repr

structure Config where
  databases : DatabasesConfig
  sync : SyncConfig
deriving DecidableEq, Repr

/- ========================================================================
   database.ExecTx (the database package half of config.go's source file).

   The destination database is modelled as the list of statements committed
   to it.  `TxResult` injects the three failure points ExecTx has (BeginTx,
   the callback, Commit); on any of them ExecTx returns an error and the
   transaction's statements do not reach the destination (rollback).
   ======================================================================== -/

inductive TxResult where
  | committed
  | beginFailed
  | fnFailed
  | commitFailed
deriving DecidableEq, Repr

def execTx (dest : List String) (ops : List String) (r : TxResult) :
    Except String (List String) :=
  match r with
  | .committed => .ok (dest ++ ops)
  | .beginFailed => .error "begin failed"
  | .fnFailed => .error "tx err"
  | .commitFailed => .error "commit failed"

/- ========================================================================
   The binlog listener source file (BinlogEvent, NewBinlogListener,
   eventHandler.OnRow).
   ======================================================================== -/

inductive EventType where
  | insert
  | update
  | delete
deriving DecidableEq, Repr

structure BinlogEvent where
  type : EventType
  schema : String
  table : String
  rows : List (List JValue)
  timestamp : Nat
  binlogFile : String
  binlogPos : Nat
deriving DecidableEq, Repr

/-- The listener as configured by `NewBinlogListener`: the canal.Config fields
it sets, the table whitelist, and the event channel's capacity.  canal.Config
carries no starting position field in this constructor, so `startPosition` is
`none`: the stream begins wherever the source currently is. -/
structure BinlogListener where
  addr : String
  user : String
  password : String
  flavor : String
  serverID : Nat
  includeTableRegex : List String
  startPosition : Option (String × Nat)
  queueCapacity : Nat
  tables : List String
deriving DecidableEq, Repr

/-- `NewBinlogListener(cfg, tables)`: builds the whitelist and regexes from
the table configuration, hardcodes ServerID 100 and flavor "mysql", sets no
replication start position, and allocates `make(chan BinlogEvent, 10000)`. -/
def NewBinlogListener (cfg : DatabaseConnection) (tables : List TableConfig) : BinlogListener :=
  { addr := cfg.host ++ ":" ++ toString cfg.port
    user := cfg.replicationUser
    password := cfg.replicationPassword
    flavor := "mysql"
    serverID := 100
    includeTableRegex := tables.map (fun t => "^" ++ cfg.database ++ "\\." ++ t.name ++ "$")
    startPosition := none
    queueCapacity := 10000
    tables := tables.map (fun t => t.name) }

inductive RowsAction where
  | insertAction
  | updateAction
  | deleteAction
  | otherAction
deriving DecidableEq, Repr

/-- `canal.RowsEvent` as OnRow consumes it. -/
structure RowsEvent where
  action : RowsAction
  schema : String
  table : String
  rows : List (List JValue)
  timestamp : Nat
deriving DecidableEq, Repr

def actionEventType : RowsAction → Option EventType
  | .insertAction => some .insert
  | .updateAction => some .update
  | .deleteAction => some .delete
  | .otherAction => none

/-- Outcome of one `OnRow` call against a queue state. -/
inductive EnqueueOutcome where
  | emitted (queue : List BinlogEvent)
  | skipped
  | blocked
  | cancelledStop (err : String)
deriving DecidableEq, Repr

/-- `eventHandler.OnRow`: filter by the whitelist, map the canal action to an
event type (anything else is consumed without forwarding), stamp the event
with the synced position, then `select` between the channel send and
`ctx.Done()`.  The channel is FIFO, so a send appends at the tail; when both
the send and the cancellation are ready Go's select picks either, which the
`pickCancel` parameter decides; a send on a full channel blocks until space
or cancellation. -/
def onRow (l : BinlogListener) (queue : List BinlogEvent) (cancelled pickCancel : Bool)
    (syncedPos : String × Nat) (e : RowsEvent) : EnqueueOutcome :=
  if l.tables.contains e.table then
    match actionEventType e.action with
    | none => .skipped
    | some t =>
      let ev : BinlogEvent :=
        { type := t
          schema := e.schema
          table := e.table
          rows := e.rows
          timestamp := e.timestamp
          binlogFile := syncedPos.1
          binlogPos := syncedPos.2 }
      if queue.length < l.queueCapacity then
        if cancelled && pickCancel then .cancelledStop "context canceled"
        else .emitted (queue ++ [ev])
      else
        if cancelled then .cancelledStop "context canceled"
        else .blocked
  else .skipped

/- ========================================================================
   The worker pool source file.

   Every worker created by WorkerPool.Start runs `Worker.run`, and all of
   them receive from the one shared `eventChan`; there is no partitioning of
   events over workers in the source.  A Go channel delivers each element, in
   FIFO order, to exactly one of the competing receivers; which worker that
   is depends on runtime scheduling, which the `sched` function below
   abstracts: the element at queue index `i` is received by worker
   `sched i`.
   ======================================================================== -/

/-- The events worker `w` receives when the channel elements (from index `i`
on) are dispatched according to `sched`.  Each worker sees its events in
channel order. -/
def workerEvents (sched : Nat → Nat) (w : Nat) : Nat → List BinlogEvent → List BinlogEvent
  | _, [] => []
  | i, e :: rest =>
      if sched i = w then e :: workerEvents sched w (i + 1) rest
      else workerEvents sched w (i + 1) rest

/-- `Worker.applyChanges`' transaction callback: the source's loop over the
events generates and executes no SQL (the DML generation is an explicit TODO
in the source; the callback body only ranges over the events and returns
nil), so the statement list a group's transaction runs is empty. -/
def applyChangesOps (_table : String) (_events : List BinlogEvent) : List String := []

/-- `Worker.updateState`: the SyncState row written after a group commits.
Field for field as the source builds it: the last event's file, position and
timestamp, `RowsSynced: 0` (the source's literal, with its "Increment this
properly" comment), status "running", and the remaining fields left at their
Go zero values. -/
def updateStateRow (table : String) (lastEvent : BinlogEvent) : SyncState :=
  { tableName := table
    lastSyncTime := some lastEvent.timestamp
    binlogFile := some lastEvent.binlogFile
    binlogPosition := some (Int.ofNat lastEvent.binlogPos)
    rowsSynced := 0
    syncDirection := ""
    status := "running"
    errorMessage := none }

/-- One table group of `Worker.processBatch`: run the group's transaction via
ExecTx; on error, log and continue with both the destination and the sync
state untouched; on success, upsert the SyncState row derived from the
group's last event through the state store — a separate statement on a
separate connection, after the destination transaction has committed. -/
def processGroup (dest : List String) (st : List SyncState) (table : String)
    (events : List BinlogEvent) (r : TxResult) : List String × List SyncState :=
  match execTx dest (applyChangesOps table events) r with
  | .error _ => (dest, st)
  | .ok dest2 =>
    match events.getLast? with
    | none => (dest2, st)
    | some lastEvent => (dest2, upsertSyncState st (updateStateRow table lastEvent))

/- ========================================================================
   manager.go `Manager.Start`.

   Start takes the mutex, rejects if already running, constructs the listener
   from the local connection config and the table list, constructs the worker
   pool, and flips the status to "running".  The state store (`m.store`) is
   in scope but Start performs no read of it: no GetSyncState call occurs and
   the listener receives no resume position.
   ======================================================================== -/

def managerStart (cfg : Config) (_stateStore : List SyncState) (status : String) :
    Except String (BinlogListener × String) :=
  if status == "running" then .error "sync is already running"
  else .ok (NewBinlogListener cfg.databases.localDb cfg.sync.tables, "running")

/- ========================================================================
   Helper lemmas: order properties of the byte-lexicographic key
   comparison, used by the canonicalization theorems below.
   ======================================================================== -/

theorem charListLeB_total : ∀ xs ys : List Char,
    charListLeB xs ys = true ∨ charListLeB ys xs = true
  | [], _ => Or.inl rfl
  | _ :: _, [] => Or.inr rfl
  | a :: as, b :: bs => by
      by_cases h1 : a.toNat < b.toNat
      · exact Or.inl (by simp [charListLeB, h1])
      · by_cases h2 : b.toNat < a.toNat
        · exact Or.inr (by simp [charListLeB, h1, h2])
        · rcases charListLeB_total as bs with h | h
          · exact Or.inl (by simp [charListLeB, h1, h2, h])
          · exact Or.inr (by simp [charListLeB, h1, h2, h])

theorem charListLeB_trans : ∀ xs ys zs : List Char,
    charListLeB xs ys = true → charListLeB ys zs = true → charListLeB xs zs = true
  | [], _, _ => fun _ _ => rfl
  | _ :: _, [], _ => fun h _ => by simp [charListLeB] at h
  | _ :: _, _ :: _, [] => fun _ h => by simp [charListLeB] at h
  | a :: as, b :: bs, c :: cs => fun h1 h2 => by
      simp only [charListLeB] at h1 h2 ⊢
      rcases Nat.lt_trichotomy a.toNat b.toNat with hab | hab | hab
      · rcases Nat.lt_trichotomy b.toNat c.toNat with hbc | hbc | hbc
        · simp [show a.toNat < c.toNat from by omega]
        · simp [show a.toNat < c.toNat from by omega]
        · simp [show ¬ b.toNat < c.toNat from by omega, hbc] at h2
      · simp [show ¬ a.toNat < b.toNat from by omega,
              show ¬ b.toNat < a.toNat from by omega] at h1
        rcases Nat.lt_trichotomy b.toNat c.toNat with hbc | hbc | hbc
        · simp [show a.toNat < c.toNat from by omega]
        · simp [show ¬ b.toNat < c.toNat from by omega,
                show ¬ c.toNat < b.toNat from by omega] at h2
          simp [show ¬ a.toNat < c.toNat from by omega,
                show ¬ c.toNat < a.toNat from by omega]
          exact charListLeB_trans as bs cs h1 h2
        · simp [show ¬ b.toNat < c.toNat from by omega, hbc] at h2
      · simp [show ¬ a.toNat < b.toNat from by omega, hab] at h1

theorem charListLtB_asymm : ∀ xs ys : List Char,
    charListLtB xs ys = true → charListLtB ys xs = true → False
  | [], [] => fun h _ => by simp [charListLtB] at h
  | [], _ :: _ => fun _ h => by simp [charListLtB] at h
  | _ :: _, [] => fun h _ => by simp [charListLtB] at h
  | a :: as, b :: bs => fun h1 h2 => by
      simp only [charListLtB] at h1 h2
      rcases Nat.lt_trichotomy a.toNat b.toNat with hab | hab | hab
      · simp [show ¬ b.toNat < a.toNat from by omega, hab] at h2
      · simp [show ¬ a.toNat < b.toNat from by omega,
              show ¬ b.toNat < a.toNat from by omega] at h1 h2
        exact charListLtB_asymm as bs h1 h2
      · simp [show ¬ a.toNat < b.toNat from by omega, hab] at h1

theorem charToNat_inj {a b : Char} (h : a.toNat = b.toNat) : a = b := by
  cases a; cases b
  congr 1
  exact UInt32.ext h

theorem charListLeB_ne_lt : ∀ xs ys : List Char,
    charListLeB xs ys = true → xs ≠ ys → charListLtB xs ys = true
  | [], [] => fun _ hne => absurd rfl hne
  | [], _ :: _ => fun _ _ => rfl
  | _ :: _, [] => fun h _ => by simp [charListLeB] at h
  | a :: as, b :: bs => fun h hne => by
      simp only [charListLeB] at h
      simp only [charListLtB]
      rcases Nat.lt_trichotomy a.toNat b.toNat with hab | hab | hab
      · simp [hab]
      · have hEq : a = b := charToNat_inj hab
        subst hEq
        simp only [Nat.lt_irrefl, if_false] at h ⊢
        exact charListLeB_ne_lt as bs h (fun hh => hne (by rw [hh]))
      · simp [show ¬ a.toNat < b.toNat from by omega, hab] at h

instance : IsTotal (String × JValue) keyLe :=
  ⟨fun a b => charListLeB_total a.1.toList b.1.toList⟩

instance : IsTrans (String × JValue) keyLe :=
  ⟨fun _ _ _ h1 h2 => charListLeB_trans _ _ _ h1 h2⟩

instance : IsAntisymm (String × JValue) keyLt :=
  ⟨fun _ _ h1 h2 => absurd h2 (fun hh => charListLtB_asymm _ _ h1 hh)⟩

/- ========================================================================
   Concrete fixtures used by the witnesses and counterexamples below.
   ======================================================================== -/

def cfgLocalDb : DatabaseConnection :=
  { host := "127.0.0.1", port := 3306, user := "root", password := "pw",
    database := "appdb", replicationUser := "repl", replicationPassword := "rpw" }

def cfgCloudDb : DatabaseConnection :=
  { host := "10.0.0.2", port := 3306, user := "root", password := "pw2",
    database := "appdb", replicationUser := "repl2", replicationPassword := "rpw2" }

def usersTable : TableConfig :=
  { name := "users", conflictResolution := "last_write_wins", batchSize := 500,
    primaryKey := "id", timestampColumn := "updated_at" }

def sampleConfig : Config :=
  { databases := { localDb := cfgLocalDb, cloudDb := cfgCloudDb }
    sync := { mode := "local_to_cloud", tables := [usersTable], workers := 8,
              realtime := true, batchInsertSize := 1000 } }

/-- A durable sync-state row for table users: 5 rows already synced up to
binlog.000002 offset 400. -/
def stUsers5 : SyncState :=
  { tableName := "users", lastSyncTime := some 1690000000,
    binlogFile := some "binlog.000002", binlogPosition := some 400,
    rowsSynced := 5, syncDirection := "local_to_cloud", status := "running",
    errorMessage := none }

def evUsers1 : BinlogEvent :=
  { type := .insert, schema := "appdb", table := "users",
    rows := [[.jint 1, .jstr "A"]], timestamp := 1700000100,
    binlogFile := "binlog.000003", binlogPos := 500 }

def evUsers2 : BinlogEvent :=
  { type := .update, schema := "appdb", table := "users",
    rows := [[.jint 1, .jstr "A"], [.jint 1, .jstr "B"]], timestamp := 1700000200,
    binlogFile := "binlog.000003", binlogPos := 750 }

/- ========================================================================
   Canonicalization lemmas (claim C9).
   ======================================================================== -/

theorem sortPairs_sorted (l : RowImage) : List.Sorted keyLe (sortPairs l) :=
  List.sorted_insertionSort keyLe l

theorem sortPairs_perm (l : RowImage) : (sortPairs l).Perm l :=
  List.perm_insertionSort keyLe l

theorem sorted_keyLt_of_sorted_nodup {l : RowImage}
    (hs : List.Sorted keyLe l) (hnd : (l.map Prod.fst).Nodup) :
    List.Sorted keyLt l := by
  have hnd2 : l.Pairwise (fun a b => a.1 ≠ b.1) := List.pairwise_map.mp hnd
  exact (hs.and hnd2).imp
    (fun hab => charListLeB_ne_lt _ _ hab.1 (fun hh => hab.2 (String.toList_inj.mp hh)))

theorem sortPairs_eq_of_perm {l1 l2 : RowImage} (hp : l1.Perm l2)
    (hnd : (l1.map Prod.fst).Nodup) : sortPairs l1 = sortPairs l2 := by
  have hnds1 : ((sortPairs l1).map Prod.fst).Nodup :=
    ((sortPairs_perm l1).map Prod.fst).nodup_iff.mpr hnd
  have hnd2 : (l2.map Prod.fst).Nodup := ((hp.map Prod.fst).nodup_iff).mp hnd
  have hnds2 : ((sortPairs l2).map Prod.fst).Nodup :=
    ((sortPairs_perm l2).map Prod.fst).nodup_iff.mpr hnd2
  have hperm : (sortPairs l1).Perm (sortPairs l2) :=
    (sortPairs_perm l1).trans (hp.trans (sortPairs_perm l2).symm)
  exact List.eq_of_perm_of_sorted hperm
    (sorted_keyLt_of_sorted_nodup (sortPairs_sorted l1) hnds1)
    (sorted_keyLt_of_sorted_nodup (sortPairs_sorted l2) hnds2)

/-- C9: canonicalization is idempotent - sorting an already canonical image
changes nothing - and permuting the input key order of a row image (a Go map
carries no key order) does not change the hash computed by calculateHash. -/
theorem canonicalization_stable (x l1 l2 : RowImage)
    (hnd : (l1.map Prod.fst).Nodup) (hp : l1.Perm l2) :
    sortPairs (sortPairs x) = sortPairs x ∧ calculateHash l1 = calculateHash l2 := by
  constructor
  · exact List.Sorted.insertionSort_eq (sortPairs_sorted x)
  · unfold calculateHash jsonMarshal
    rw [sortPairs_eq_of_perm hp hnd]

/-- C9 witness: the theorem applied to concrete images (two key orders of the
same two-column row). -/
theorem canonicalization_stable_witness :
    (([(("b" : String), JValue.jint 1), (("a" : String), JValue.jint 2)].map Prod.fst).Nodup)
    ∧ ([(("b" : String), JValue.jint 1), (("a" : String), JValue.jint 2)].Perm
        [(("a" : String), JValue.jint 2), (("b" : String), JValue.jint 1)])
    ∧ (sortPairs (sortPairs [(("id" : String), JValue.jint 7)])
          = sortPairs [(("id" : String), JValue.jint 7)]
       ∧ calculateHash [(("b" : String), JValue.jint 1), (("a" : String), JValue.jint 2)]
          = calculateHash [(("a" : String), JValue.jint 2), (("b" : String), JValue.jint 1)]) :=
  ⟨by decide, by decide,
   canonicalization_stable [(("id" : String), JValue.jint 7)]
     [(("b" : String), JValue.jint 1), (("a" : String), JValue.jint 2)]
     [(("a" : String), JValue.jint 2), (("b" : String), JValue.jint 1)]
     (by decide) (by decide)⟩

/- ========================================================================
   Claim C4.
   ======================================================================== -/

/-- C4: if a table group's batch transaction fails at any of ExecTx's failure
points, the transaction is rolled back (the destination statement log is
unchanged) and no sync-state write occurs for the group, so the stored
TablePosition is exactly as before. -/
theorem failed_group_leaves_position (dest : List String) (st : List SyncState)
    (table : String) (events : List BinlogEvent) (r : TxResult)
    (h : r ≠ TxResult.committed) :
    processGroup dest st table events r = (dest, st) := by
  cases r with
  | committed => exact absurd rfl h
  | beginFailed => rfl
  | fnFailed => rfl
  | commitFailed => rfl

/-- C4 witness: a failing one-event group for users leaves the prior destination
log and the prior sync-state row untouched. -/
theorem failed_group_leaves_position_witness :
    (TxResult.fnFailed ≠ TxResult.committed)
    ∧ processGroup ["INSERT INTO users"] [stUsers5] "users" [evUsers1] TxResult.fnFailed
        = (["INSERT INTO users"], [stUsers5]) :=
  ⟨by decide,
   failed_group_leaves_position ["INSERT INTO users"] [stUsers5] "users" [evUsers1]
     TxResult.fnFailed (by decide)⟩

/- ========================================================================
   Claim C10.
   ======================================================================== -/

theorem resolve_map_noop (cid strategy : String) (d : RowImage) (now : Nat) :
    ∀ tbl : List Conflict, (∀ r ∈ tbl, r.id ≠ cid) →
      List.map (fun r =>
        if r.id == cid then
          { r with resolved := true, resolutionStrategy := some strategy,
                   resolvedData := some d, resolvedAt := some now }
        else r) tbl = tbl
  | [], _ => rfl
  | r :: rest, h => by
      have hr : (r.id == cid) = false := beq_eq_false_iff_ne.mpr (h r (List.mem_cons_self r rest))
      simp only [List.map_cons, hr, Bool.false_eq_true, if_false]
      rw [resolve_map_noop cid strategy d now rest (fun x hx => h x (List.mem_cons_of_mem r hx))]

/-- C10: ResolveConflict with an id that matches no stored conflict returns
success (the UPDATE matches zero rows, which is not an error) and leaves the
conflicts table unchanged. -/
theorem resolve_missing_conflict_noop (tbl : List Conflict) (cid strategy : String)
    (d : RowImage) (now : Nat) (h : ∀ r ∈ tbl, r.id ≠ cid) :
    resolveConflict tbl cid strategy d now = .ok tbl := by
  unfold resolveConflict
  rw [resolve_map_noop cid strategy d now tbl h]

/-- A stored conflict used by the C10 and C5 fixtures. -/
def conflictA : Conflict :=
  { id := "9e8d7c6b-0001", tableName := "users", primaryKeyValue := "1",
    localData := [("name", .jstr "A")], cloudData := [("name", .jstr "B")],
    conflictType := "data_mismatch", detectedAt := 1700000100, resolved := false,
    resolutionStrategy := none, resolvedAt := none, resolvedData := none }

/-- C10 witness: resolving an id that does not exist succeeds and changes
nothing. -/
theorem resolve_missing_conflict_noop_witness :
    (∀ r ∈ [conflictA], r.id ≠ "no-such-id")
    ∧ resolveConflict [conflictA] "no-such-id" "manual" [("name", .jstr "A")] 1700000500
        = .ok [conflictA] :=
  ⟨by decide,
   resolve_missing_conflict_noop [conflictA] "no-such-id" "manual"
     [("name", .jstr "A")] 1700000500 (by decide)⟩

/- ========================================================================
   Claim C1.
   ======================================================================== -/

/-- C1: Manager.Start never loads the durable TablePosition rows.  With a
state store holding a durable position for users, Start still constructs the
listener with no resume position (the stream begins at the source's current
state, not at the stored minimum), and its result is independent of the state
store contents altogether. -/
theorem start_ignores_stored_position :
    (managerStart sampleConfig [stUsers5] "idle"
        = .ok (NewBinlogListener cfgLocalDb [usersTable], "running"))
    ∧ (NewBinlogListener cfgLocalDb [usersTable]).startPosition = none
    ∧ (∀ (st1 st2 : List SyncState) (status : String),
        managerStart sampleConfig st1 status = managerStart sampleConfig st2 status) :=
  ⟨rfl, rfl, fun _ _ _ => rfl⟩

/- ========================================================================
   Claim C2.
   ======================================================================== -/

theorem workerEvents_sublist (sched : Nat → Nat) (w : Nat) :
    ∀ (i : Nat) (events : List BinlogEvent),
      (workerEvents sched w i events).Sublist events
  | _, [] => List.Sublist.slnil
  | i, e :: rest => by
      simp only [workerEvents]
      by_cases h : sched i = w
      · rw [if_pos h]
        exact List.Sublist.cons₂ e (workerEvents_sublist sched w (i + 1) rest)
      · rw [if_neg h]
        exact List.Sublist.cons e (workerEvents_sublist sched w (i + 1) rest)

/-- C2 counterexample: every worker spawned by WorkerPool.Start receives from
the one shared eventChan, so the schedule that hands queue index 0 to worker 0
and queue index 1 to worker 1 is a legal execution - and under it the two
events of table users are consumed by two different workers, refuting the
claimed table-hash ownership. -/
theorem users_events_split_across_workers :
    evUsers1.table = "users" ∧ evUsers2.table = "users"
    ∧ workerEvents (fun i => i) 0 0 [evUsers1, evUsers2] = [evUsers1]
    ∧ workerEvents (fun i => i) 1 0 [evUsers1, evUsers2] = [evUsers2] := by
  decide

/-- C2 amended: the shared channel hands the element at each queue index to
exactly one worker (whichever the runtime scheduler picks - not a function of
the table name), and each worker receives its events in channel order, as a
sublist of the source sequence.  Single-worker ownership of a table is not
guaranteed. -/
theorem shared_channel_dispatch (sched : Nat → Nat) (w i : Nat)
    (events : List BinlogEvent) :
    (workerEvents sched w i events).Sublist events ∧ (∃! wk : Nat, sched i = wk) :=
  ⟨workerEvents_sublist sched w i events, ⟨sched i, rfl, fun _ hy => hy.symm⟩⟩

/- ========================================================================
   Claim C3.
   ======================================================================== -/

/-- C3 counterexample: a successfully applied two-event users batch against a
prior stored position with rows_synced = 5 writes a sync-state row carrying
rows_synced = 0 instead of an advanced counter, and the destination
transaction runs the empty statement list - the sync_state write is not part
of it. -/
theorem rows_applied_not_advanced :
    (processGroup [] [stUsers5] "users" [evUsers1, evUsers2] TxResult.committed).2
        = [updateStateRow "users" evUsers2]
    ∧ (updateStateRow "users" evUsers2).rowsSynced = 0
    ∧ stUsers5.rowsSynced = 5
    ∧ applyChangesOps "users" [evUsers1, evUsers2] = [] := by
  decide

/-- C3 amended: for a successfully committed table group the worker writes the
sync-state row through the separate state store connection after the
destination transaction commits (the transaction itself executes the empty
statement list, the source leaving DML generation as a TODO); the row carries
last_file / last_offset of the group's final event, and rows_synced is
overwritten with 0 rather than advanced by the applied row count. -/
theorem position_written_after_commit (dest : List String) (st : List SyncState)
    (table : String) (events : List BinlogEvent) (e : BinlogEvent)
    (hlast : events.getLast? = some e) :
    processGroup dest st table events TxResult.committed
      = (dest ++ applyChangesOps table events, upsertSyncState st (updateStateRow table e))
    ∧ (updateStateRow table e).rowsSynced = 0
    ∧ (updateStateRow table e).binlogFile = some e.binlogFile
    ∧ (updateStateRow table e).binlogPosition = some (Int.ofNat e.binlogPos) := by
  refine ⟨?_, rfl, rfl, rfl⟩
  unfold processGroup execTx
  rw [hlast]

/-- C3 witness: the amended theorem at the concrete two-event users batch. -/
theorem position_written_after_commit_witness :
    ([evUsers1, evUsers2].getLast? = some evUsers2)
    ∧ (processGroup [] [stUsers5] "users" [evUsers1, evUsers2] TxResult.committed
        = ([] ++ applyChangesOps "users" [evUsers1, evUsers2],
           upsertSyncState [stUsers5] (updateStateRow "users" evUsers2))
       ∧ (updateStateRow "users" evUsers2).rowsSynced = 0
       ∧ (updateStateRow "users" evUsers2).binlogFile = some evUsers2.binlogFile
       ∧ (updateStateRow "users" evUsers2).binlogPosition
           = some (Int.ofNat evUsers2.binlogPos)) :=
  ⟨by decide,
   position_written_after_commit [] [stUsers5] "users" [evUsers1, evUsers2] evUsers2
     (by decide)⟩

/- ========================================================================
   Claim C5.
   ======================================================================== -/

/-- A second divergence for the same (users, pk 1) while conflictA is still
unresolved. -/
def conflictB : Conflict :=
  { conflictA with
    id := "9e8d7c6b-0002"
    localData := [("name", .jstr "C")]
    detectedAt := 1700000200 }

/-- C5 counterexample: CreateConflict accepts a second unresolved conflict for
the same (table_name, primary_key_value) - the schema constrains only the id
primary key - so two unresolved records for (users, 1) coexist, and the second
divergence created a new row instead of updating the existing one. -/
theorem second_unresolved_conflict_accepted :
    createConflict [] conflictA = .ok [conflictA]
    ∧ createConflict [conflictA] conflictB = .ok [conflictA, conflictB]
    ∧ conflictA.tableName = conflictB.tableName
    ∧ conflictA.primaryKeyValue = conflictB.primaryKeyValue
    ∧ conflictA.resolved = false ∧ conflictB.resolved = false
    ∧ conflictA.id ≠ conflictB.id :=
  ⟨rfl, rfl, rfl, rfl, rfl, rfl, by decide⟩

/-- C5 amended: CreateConflict is a plain INSERT guarded only by the conflicts
primary key on id: with a fresh id it succeeds and appends the record even when
an unresolved conflict for the same (table_name, primary_key_value) is already
stored; at-most-one-unresolved-per-(table, pk) is not enforced. -/
theorem create_conflict_plain_insert (tbl : List Conflict) (c : Conflict)
    (hfresh : ∀ r ∈ tbl, r.id ≠ c.id)
    (_hdup : ∃ r ∈ tbl, r.tableName = c.tableName ∧ r.primaryKeyValue = c.primaryKeyValue
              ∧ r.resolved = false) :
    createConflict tbl c = .ok (tbl ++ [c]) := by
  unfold createConflict
  have hany : (tbl.any (fun r => r.id == c.id)) = false := by
    rw [List.any_eq_false]
    intro r hr
    simp [hfresh r hr]
  rw [hany]
  simp

/-- C5 witness: the amended theorem at the concrete pair of conflicts. -/
theorem create_conflict_plain_insert_witness :
    (∀ r ∈ [conflictA], r.id ≠ conflictB.id)
    ∧ (∃ r ∈ [conflictA], r.tableName = conflictB.tableName
         ∧ r.primaryKeyValue = conflictB.primaryKeyValue ∧ r.resolved = false)
    ∧ createConflict [conflictA] conflictB = .ok ([conflictA] ++ [conflictB]) :=
  ⟨by decide, by decide,
   create_conflict_plain_insert [conflictA] conflictB (by decide) (by decide)⟩

/- ========================================================================
   Claim C6.
   ======================================================================== -/

def imgLocalTs : RowImage :=
  [("id", .jint 1), ("name", .jstr "A"), ("updated_at", .jstr "2024-01-01 00:00:00")]

def imgCloudTs : RowImage :=
  [("id", .jint 1), ("name", .jstr "A"), ("updated_at", .jstr "2024-01-02 00:00:00")]

set_option maxRecDepth 20000 in
/-- C6: at two row images identical except in updated_at, DetectConflict
reports a conflict - calculateHash hashes the full JSON serialization and
excludes no column - whereas the specified canonical hash with updated_at on
the ignore-list reports none.  The implemented detection predicate disagrees
with the specified one exactly on the ignore-list clause. -/
theorem detect_conflict_has_no_ignore_list :
    (DetectConflict "8a7b6c5d-0001" 1700000300 "users" "1" imgLocalTs imgCloudTs).1 = true
    ∧ specDetectConflict ["updated_at"] imgLocalTs imgCloudTs = false := by
  decide

/- ========================================================================
   Claim C7.
   ======================================================================== -/

/-- A conflict whose cloud image carries the strictly greater timestamp in the
declared timestamp column. -/
def conflictTs : Conflict :=
  { id := "7c6b5a49-0001", tableName := "users", primaryKeyValue := "5",
    localData := [("name", .jstr "L"), ("updated_at", .jint 100)],
    cloudData := [("name", .jstr "C"), ("updated_at", .jint 200)],
    conflictType := "data_mismatch", detectedAt := 1700000400, resolved := false,
    resolutionStrategy := none, resolvedAt := none, resolvedData := none }

/-- C7: last_write_wins resolution returns the local image although the cloud
image's declared timestamp column holds the strictly greater value, and the
result is the same for every declared column name: the timestamp column is
never consulted, no winner comparison happens, and nothing degrades to
manual. -/
theorem lww_returns_local_unconditionally :
    lwwResolve { timestampColumn := "updated_at" } conflictTs = .ok conflictTs.localData
    ∧ conflictTs.localData.lookup "updated_at" = some (.jint 100)
    ∧ conflictTs.cloudData.lookup "updated_at" = some (.jint 200)
    ∧ (∀ col : String,
        lwwResolve { timestampColumn := col } conflictTs = .ok conflictTs.localData) :=
  ⟨rfl, by decide, by decide, fun _ => rfl⟩

/- ========================================================================
   Claim C8.
   ======================================================================== -/

/-- C8 counterexample: the enqueue capacity is not configurable - as a function
of the database configuration and table list, the capacity NewBinlogListener
allocates is the constant 10000. -/
theorem queue_capacity_not_configurable :
    (fun (cfg : DatabaseConnection) (ts : List TableConfig) =>
        (NewBinlogListener cfg ts).queueCapacity)
      = (fun _ _ => 10000) := by
  funext _ _
  rfl

theorem onRow_behavior (l : BinlogListener) (q : List BinlogEvent)
    (pickCancel : Bool) (pos : String × Nat) (e : RowsEvent) (t : EventType)
    (hallow : l.tables.contains e.table = true)
    (haction : actionEventType e.action = some t) :
    (q.length < l.queueCapacity →
        onRow l q false pickCancel pos e
          = .emitted (q ++ [{ type := t, schema := e.schema, table := e.table,
                              rows := e.rows, timestamp := e.timestamp,
                              binlogFile := pos.1, binlogPos := pos.2 }]))
    ∧ (¬ q.length < l.queueCapacity →
        onRow l q false pickCancel pos e = .blocked)
    ∧ (¬ q.length < l.queueCapacity →
        onRow l q true pickCancel pos e = .cancelledStop "context canceled") := by
  have hm : e.table ∈ l.tables := by simpa using hallow
  refine ⟨fun h => ?_, fun h => ?_, fun h => ?_⟩ <;>
    simp [onRow, hm, haction, h]

/-- C8 amended: the change queue's capacity is fixed at 10000 for every
configuration (the 10,000 figure is right but it is not configurable), and for
an allow-listed row event the enqueue is blocking and cancellable: with space
and no cancellation the stamped event is appended at the queue tail - nothing
dropped, FIFO order kept; with a full queue and no cancellation the listener
suspends at the enqueue point; with a full queue and cancellation observed the
handler returns the cancellation error. -/
theorem enqueue_blocking_cancellable (cfg : DatabaseConnection) (ts : List TableConfig)
    (q : List BinlogEvent) (pickCancel : Bool) (pos : String × Nat)
    (e : RowsEvent) (t : EventType)
    (hallow : (NewBinlogListener cfg ts).tables.contains e.table = true)
    (haction : actionEventType e.action = some t) :
    ((NewBinlogListener cfg ts).queueCapacity = 10000)
    ∧ (q.length < 10000 →
        onRow (NewBinlogListener cfg ts) q false pickCancel pos e
          = .emitted (q ++ [{ type := t, schema := e.schema, table := e.table,
                              rows := e.rows, timestamp := e.timestamp,
                              binlogFile := pos.1, binlogPos := pos.2 }]))
    ∧ (¬ q.length < 10000 →
        onRow (NewBinlogListener cfg ts) q false pickCancel pos e = .blocked)
    ∧ (¬ q.length < 10000 →
        onRow (NewBinlogListener cfg ts) q true pickCancel pos e
          = .cancelledStop "context canceled") := by
  have hb := onRow_behavior (NewBinlogListener cfg ts) q pickCancel pos e t hallow haction
  exact ⟨rfl, hb.1, hb.2.1, hb.2.2⟩

/-- A users insert row event as OnRow receives it. -/
def rowsEvUsers : RowsEvent :=
  { action := .insertAction, schema := "appdb", table := "users",
    rows := [[.jint 1, .jstr "A"]], timestamp := 1700000100 }

/-- C8 witness: the amended theorem applied to an empty queue and the concrete
users row event. -/
theorem enqueue_blocking_cancellable_witness :
    ((NewBinlogListener cfgLocalDb [usersTable]).tables.contains rowsEvUsers.table = true)
    ∧ (actionEventType rowsEvUsers.action = some EventType.insert)
    ∧ (([] : List BinlogEvent).length < 10000)
    ∧ onRow (NewBinlogListener cfgLocalDb [usersTable]) [] false false
        ("binlog.000003", 500) rowsEvUsers
        = .emitted (([] : List BinlogEvent) ++
            [{ type := EventType.insert, schema := rowsEvUsers.schema,
               table := rowsEvUsers.table, rows := rowsEvUsers.rows,
               timestamp := rowsEvUsers.timestamp,
               binlogFile := (("binlog.000003", 500) : String × Nat).1,
               binlogPos := (("binlog.000003", 500) : String × Nat).2 }]) :=
  ⟨by decide, by decide, by decide,
   (enqueue_blocking_cancellable cfgLocalDb [usersTable] [] false ("binlog.000003", 500)
      rowsEvUsers EventType.insert (by decide) (by decide)).2.1 (by decide)⟩

end DbSyncX
